import Mathlib

/-!
Shallow embedding of `src/game/game.ts` (class `Game`) from the
survivreloaded server: the fixed-rate tick callback (movement, melee
combat, the attack-animation state machine, dirty-object aggregation,
the per-client broadcast pass and the transient-buffer reset), and the
session lifecycle operations `addPlayer` / `removePlayer`.

Modelling conventions, each taken from the source:
* JavaScript objects shared by `players` / `connectedPlayers` /
  `activePlayers` are modelled with `players : List Player` as the heap
  (the master list, which nothing ever removes from) and the other
  collections as lists of identities; mutation of a shared object is an
  update of every heap entry carrying that identity.
* External collaborators are parameters: the clock (`Date.now()`) is a
  `now : Int` argument, and the matter-js narrow-phase query
  (`Collision.collides` on the probe built from the weapon offset) is an
  oracle `collides : Nat → Option Nat` giving, per attacker, the
  penetration depth of each object's collision with the probe, if any
  (matter-js depths are non-negative reals; only their order matters
  here, so they are naturals).
* `Player.damage` / `Obstacle.interact` live outside `src/`; their
  invocations are recorded in ghost logs (`damageLog`, `interactLog`)
  and change no modelled state.
* Packet construction and sockets are external and not modelled.
-/

/-- A melee damage invocation `closestObject.damage(24, p)`. -/
structure DamageEvent where
  target : Nat
  amount : Nat
  attacker : Nat
  deriving DecidableEq, Repr

/-- The run-time kinds the combat loop dispatches on with `instanceof`. -/
inductive ObjKind
  | player
  | obstacle
  | other
  deriving DecidableEq, Repr

/-- A world object as the melee scan reads it (`this.map.objects`):
identity, kind, whether a physics body exists, the `dead` flag (a
`GameObject` field, `false` at construction), and the `destructible` /
`isDoor` flags declared on `Obstacle` (outside `src/`, but their use at
`game.ts:131-143` fixes their meaning). -/
structure GObj where
  id : Nat := 0
  kind : ObjKind := ObjKind.other
  hasBody : Bool := true
  dead : Bool := false
  destructible : Bool := false
  isDoor : Bool := false
  deriving DecidableEq, Repr

/-- The `Player` state read and written by `game.ts`: input-intent
flags, the melee cooldown timestamp, the animation state machine
`{animActive, animType, animSeq, animTime}`, the per-client visibility
set and diff buffers, and the velocity last written to the physics
collaborator by `setVelocity`. Field defaults are the construction
values fixed by `GameObject` (`dead = false`) and empty buffers. -/
structure Player where
  id : Nat := 0
  dead : Bool := false
  quit : Bool := false
  movingUp : Bool := false
  movingDown : Bool := false
  movingLeft : Bool := false
  movingRight : Bool := false
  shootStart : Bool := false
  meleeCooldown : Int := 0
  moving : Bool := false
  animActive : Bool := false
  animType : Nat := 0
  animSeq : Nat := 0
  animTime : Nat := 0
  velocity : Int × Int := (0, 0)
  direction : Int × Int := (1, 0)
  visibleObjects : List Nat := []
  fullObjects : List Nat := []
  partialObjects : List Nat := []
  skipObjectCalculations : Bool := false
  emotesDirty : Bool := false
  explosionsDirty : Bool := false
  emotes : List Nat := []
  explosions : List Nat := []
  deriving DecidableEq, Repr

/-- The session state of class `Game`. `players` is the heap of all
players ever added; `connectedPlayers` / `activePlayers` /
`dirtyPlayers` hold identities into it. `objects` is `this.map.objects`
as the melee scan sees it. `damageLog` / `interactLog` are ghost
observation logs for the external `damage` / `interact` calls. -/
structure Game where
  players : List Player := []
  connectedPlayers : List Nat := []
  activePlayers : List Nat := []
  dirtyPlayers : List Nat := []
  aliveCount : Int := 0
  aliveCountDirty : Bool := false
  playerInfosDirty : Bool := false
  deletedPlayerIds : List Nat := []
  emotes : List Nat := []
  explosions : List Nat := []
  kills : List Nat := []
  fullDirtyObjects : List Nat := []
  partialDirtyObjects : List Nat := []
  objects : List GObj := []
  damageLog : List DamageEvent := []
  interactLog : List Nat := []
  deriving DecidableEq, Repr

/-- Modelled from the spec: `removeFrom` (imported from `../utils`,
which is not under `src/`) removes the player from the given
collection; per the spec's lifecycle section it removes the player from
the active and connected collections, and removing an element that is
absent leaves the collection unchanged. `List.erase` is exactly that. -/
def removeFrom (l : List Nat) (x : Nat) : List Nat :=
  l.erase x

/-- Dereference a shared player object: the first heap entry with this
identity (in every reachable state identities are unique). -/
def findPlayer (g : Game) (pid : Nat) : Option Player :=
  g.players.find? (fun q => q.id == pid)

/-- In-place mutation of the shared player object with identity `pid`:
every heap entry carrying the identity is updated. -/
def updatePlayer (g : Game) (pid : Nat) (f : Player → Player) : Game :=
  { g with players := g.players.map (fun q => if q.id == pid then f q else q) }

/-- Movement mapping, `game.ts:93-107`: `p.moving = true`, then the
if/else chain over the four directional flags (diagonals first), else
velocity zero and `p.moving = false`. (The source's redundant second
`setVelocity(0, 0)` inside the else branch writes the same value and is
collapsed.) -/
def processMovement (s ds : Int) (p : Player) : Player :=
  let p1 := { p with moving := true }
  if p1.movingUp && p1.movingLeft then { p1 with velocity := (-ds, ds) }
  else if p1.movingUp && p1.movingRight then { p1 with velocity := (ds, ds) }
  else if p1.movingDown && p1.movingLeft then { p1 with velocity := (-ds, -ds) }
  else if p1.movingDown && p1.movingRight then { p1 with velocity := (ds, -ds) }
  else if p1.movingUp then { p1 with velocity := (0, s) }
  else if p1.movingDown then { p1 with velocity := (0, -s) }
  else if p1.movingLeft then { p1 with velocity := (-s, 0) }
  else if p1.movingRight then { p1 with velocity := (s, 0) }
  else { p1 with velocity := (0, 0), moving := false }

/-- The movement table as a pure function of the four flags alone,
stated for comparison with `processMovement`. -/
def movementVelocity (s ds : Int) (up down left right : Bool) : Int × Int :=
  if up && left then (-ds, ds)
  else if up && right then (ds, ds)
  else if down && left then (-ds, -ds)
  else if down && right then (ds, -ds)
  else if up then (0, s)
  else if down then (0, -s)
  else if left then (-s, 0)
  else if right then (s, 0)
  else (0, 0)

/-- The filter of the melee loop, `game.ts:131-132`: skip objects with
no body, dead objects and the attacker; keep destructible obstacles and
players; and the probe must actually collide (the oracle is `some`). -/
def meleeCandidate (aid : Nat) (collides : Nat → Option Nat) (o : GObj) : Bool :=
  !(!o.hasBody || o.dead || o.id == aid) &&
    ((o.kind == ObjKind.obstacle && o.destructible) || o.kind == ObjKind.player) &&
    (collides o.id).isSome

/-- The penetration depth the oracle reports for an object (`0` when it
reports none; only read where the oracle is `some`). -/
def candDepth (collides : Nat → Option Nat) (o : GObj) : Nat :=
  (collides o.id).getD 0

/-- The selection loop of `game.ts:130-140`, carrying `maxDepth`
(initially `-1`) and `closestObject` (initially `null`). An object
replaces the running best exactly when its collision depth strictly
exceeds `maxDepth`. -/
def meleeScanAux (aid : Nat) (collides : Nat → Option Nat) :
    List GObj → Int → Option GObj → Option GObj
  | [], _, closest => closest
  | o :: rest, maxDepth, closest =>
    if !o.hasBody || o.dead || o.id == aid then
      meleeScanAux aid collides rest maxDepth closest
    else if (o.kind == ObjKind.obstacle && o.destructible) || o.kind == ObjKind.player then
      match collides o.id with
      | some d =>
        if (d : Int) > maxDepth then meleeScanAux aid collides rest (d : Int) (some o)
        else meleeScanAux aid collides rest maxDepth closest
      | none => meleeScanAux aid collides rest maxDepth closest
    else meleeScanAux aid collides rest maxDepth closest

/-- The whole melee target search: the loop started with
`maxDepth = -1`, `closestObject = null`. -/
def meleeScan (aid : Nat) (collides : Nat → Option Nat) (objects : List GObj) : Option GObj :=
  meleeScanAux aid collides objects (-1) none

/-- The shoot-start block, `game.ts:111-160`: the intent flag is
cleared first; if at least 250 ms elapsed since the previous melee
action the cooldown timestamp becomes `now`, the punch animation starts
when none is active, and the scan's selected object (if any) receives
`damage(24, p)`, plus `interact(p)` when it is a door obstacle. Returns
the player together with the damage and interact invocations. -/
def processShoot (now : Int) (collides : Nat → Option Nat) (objects : List GObj)
    (p : Player) : Player × List DamageEvent × List Nat :=
  if p.shootStart then
    let p1 := { p with shootStart := false }
    if 250 ≤ now - p1.meleeCooldown then
      let p2 := { p1 with meleeCooldown := now }
      let p3 :=
        if !p2.animActive then { p2 with animActive := true, animType := 1, animTime := 0 }
        else p2
      match meleeScan p3.id collides objects with
      | some o =>
        (p3, [{ target := o.id, amount := 24, attacker := p3.id }],
          if o.kind == ObjKind.obstacle && o.isDoor then [o.id] else [])
      | none => (p3, [], [])
    else (p1, [], [])
  else (p, [], [])

/-- The animation / dirty block, `game.ts:162-174`: while an animation
is active the player's own identity goes into its `fullObjects` buffer,
the elapsed counter increments, the sequence is set, and once the
counter exceeds 8 (post-increment check) the state returns to idle with
type, sequence and counter reset to zero; while idle the identity goes
into `partialObjects` instead. The boolean reports which session-wide
dirty list the caller must push the identity into. -/
def processAnim (p : Player) : Player × Bool :=
  if p.animActive then
    let t := p.animTime + 1
    let p1 := { p with fullObjects := p.fullObjects ++ [p.id], animSeq := 1, animTime := t }
    if t > 8 then
      ({ p1 with animActive := false, animType := 0, animSeq := 0, animTime := 0 }, true)
    else (p1, true)
  else ({ p with partialObjects := p.partialObjects ++ [p.id] }, false)

/-- One application of the animation / dirty block to a player (the
player component of `processAnim`). -/
def animStep (p : Player) : Player :=
  (processAnim p).1

/-- One iteration of the first tick loop (`game.ts:88-175`) for one
active player: movement, the shoot block, the animation block, then the
push of the player's identity into the session's full- or partial-dirty
list. A missing identity (impossible in reachable states) leaves the
session unchanged. -/
def tickPlayerStep (s ds now : Int) (collides : Nat → Nat → Option Nat)
    (g : Game) (pid : Nat) : Game :=
  match findPlayer g pid with
  | none => g
  | some p =>
    let p1 := processMovement s ds p
    let r := processShoot now (collides pid) g.objects p1
    let a := processAnim r.1
    let g1 := updatePlayer g pid (fun _ => a.1)
    let g2 :=
      if a.2 then { g1 with fullDirtyObjects := g1.fullDirtyObjects ++ [a.1.id] }
      else { g1 with partialDirtyObjects := g1.partialDirtyObjects ++ [a.1.id] }
    { g2 with damageLog := g2.damageLog ++ r.2.1, interactLog := g2.interactLog ++ r.2.2 }

/-- The first tick loop over all active players, in order. -/
def firstLoop (s ds now : Int) (collides : Nat → Nat → Option Nat) (g : Game) : Game :=
  List.foldl (fun acc pid => tickPlayerStep s ds now collides acc pid) g g.activePlayers

/-- The body of the second tick loop (`game.ts:179-201`) for one
connected player: the `skipObjectCalculations` hint, the ambient
emote / explosion propagation, and the visibility-filtered propagation
of the session-wide dirty lists into the player's private buffers. -/
def broadcastPlayer (g : Game) (p : Player) : Player :=
  let p1 := { p with
    skipObjectCalculations :=
      g.fullDirtyObjects.isEmpty && g.partialDirtyObjects.isEmpty && !p.moving }
  let p2 :=
    if g.emotes.length > 0 then { p1 with emotesDirty := true, emotes := g.emotes }
    else p1
  let p3 :=
    if g.explosions.length > 0 then
      { p2 with explosionsDirty := true, explosions := g.explosions }
    else p2
  let p4 :=
    if g.fullDirtyObjects.length > 0 then
      { p3 with fullObjects :=
          p3.fullObjects ++ g.fullDirtyObjects.filter (fun oid => p3.visibleObjects.contains oid) }
    else p3
  if g.partialDirtyObjects.length > 0 then
    { p4 with partialObjects :=
        p4.partialObjects ++ g.partialDirtyObjects.filter (fun oid => p4.visibleObjects.contains oid) }
  else p4

/-- One iteration of the second tick loop (`game.ts:178-208`) for one
connected player. Packet emission is external and not modelled. -/
def broadcastStep (g : Game) (pid : Nat) : Game :=
  match findPlayer g pid with
  | none => g
  | some p => updatePlayer g pid (fun _ => broadcastPlayer g p)

/-- The second tick loop over all connected players, in order. -/
def secondLoop (g : Game) : Game :=
  List.foldl broadcastStep g g.connectedPlayers

/-- The transient-state reset at the end of the tick callback,
`game.ts:210-218`. -/
def tickReset (g : Game) : Game :=
  { g with
    emotes := []
    explosions := []
    kills := []
    fullDirtyObjects := []
    partialDirtyObjects := []
    dirtyPlayers := []
    deletedPlayerIds := []
    aliveCountDirty := false }

/-- One whole tick callback (`game.ts:82-219`): physics integration is
external, then the first loop, the second loop and the reset. -/
def tick (s ds now : Int) (collides : Nat → Nat → Option Nat) (g : Game) : Game :=
  tickReset (secondLoop (firstLoop s ds now collides g))

/-- The player built by `new Player(this.map.objects.length, ...)` at
`game.ts:227`, with the initial burst's self-seeding push of its own
identity into its own `fullObjects` (`game.ts:241`) already applied. -/
def Game.newPlayer (g : Game) : Player :=
  { id := g.objects.length, fullObjects := [g.objects.length] }

/-- `Game.addPlayer`, `game.ts:222-247`: the new player's identity is
the current size of the object registry; it is appended to the
registry, the heap and the connected / active / dirty collections and
to the session's full-dirty list; the alive count increments and the
dirty flags are set. Spawn position, sockets and packets are external.
Returns the session and the new player. -/
def Game.addPlayer (g : Game) : Game × Player :=
  ({ g with
      objects := g.objects ++ [{ id := g.objects.length, kind := ObjKind.player }],
      players := g.players ++ [g.newPlayer],
      connectedPlayers := g.connectedPlayers ++ [g.objects.length],
      activePlayers := g.activePlayers ++ [g.objects.length],
      dirtyPlayers := g.dirtyPlayers ++ [g.objects.length],
      fullDirtyObjects := g.fullDirtyObjects ++ [g.objects.length],
      aliveCount := g.aliveCount + 1,
      aliveCountDirty := true,
      playerInfosDirty := true }, g.newPlayer)

/-- `Game.removePlayer`, `game.ts:249-260`: reset the facing direction,
set `quit`, record the identity in the deleted-ids and partial-dirty
lists, remove the player from the active and connected collections, and
decrement the alive count (setting its dirty flag) only when the player
is not dead. The dead check reads the shared player object `p` — its
heap state after the direction/quit mutation (which leaves `dead`
untouched); the collection removals do not affect the heap, so the
check dereferences `g1`. -/
def Game.removePlayer (g : Game) (pid : Nat) : Game :=
  let g1 := updatePlayer g pid (fun q => { q with direction := (1, 0), quit := true })
  let g2 := { g1 with
    deletedPlayerIds := g1.deletedPlayerIds ++ [pid],
    partialDirtyObjects := g1.partialDirtyObjects ++ [pid],
    activePlayers := removeFrom g1.activePlayers pid,
    connectedPlayers := removeFrom g1.connectedPlayers pid }
  match findPlayer g1 pid with
  | some q =>
    if !q.dead then { g2 with aliveCount := g2.aliveCount - 1, aliveCountDirty := true }
    else g2
  | none => g2

/-- The freshly constructed session: every collection empty, alive
count zero (the `Game` constructor before any join). -/
def emptyGame : Game := {}

/-- Whether the identity denotes an active player that is not dead (the
quantity `aliveCount` is supposed to track). -/
def alivePid (g : Game) (pid : Nat) : Bool :=
  match findPlayer g pid with
  | some q => !q.dead
  | none => false

/-- The number of players in the active collection whose `dead` flag is
false. -/
def activeAliveCount (g : Game) : Nat :=
  (g.activePlayers.filter (fun pid => alivePid g pid)).length

/-- The alive-count bookkeeping invariant of the spec. -/
def aliveInv (g : Game) : Prop :=
  g.aliveCount = (activeAliveCount g : Int)

/-- Structural well-formedness every reachable session state enjoys:
heap identities are below the registry size, active identities denote
heap entries, and the active collection holds no duplicates. -/
structure WfGame (g : Game) : Prop where
  store_lt : ∀ q ∈ g.players, q.id < g.objects.length
  active_store : ∀ pid ∈ g.activePlayers, (findPlayer g pid).isSome
  active_nodup : g.activePlayers.Nodup

/-- A collision oracle reporting no overlap for anyone. -/
def cOracleNone : Nat → Nat → Option Nat :=
  fun _ _ => none

/-- The session right after one join on a fresh session. -/
def joinedGame : Game :=
  (emptyGame.addPlayer).1

/-- A session holding one idle connected/active player whose visibility
set is empty (`updateVisibleObjects` is commented out of the tick loop
at `game.ts:109`, so nothing in the loop ever fills the set). -/
def soloGame : Game :=
  { emptyGame with
    players := [{ id := 0 }]
    connectedPlayers := [0]
    activePlayers := [0]
    objects := [{ id := 0, kind := ObjKind.player }] }

/-- A player at the activation instant of the punch animation
(`game.ts:117-121` has just run: active, elapsed reset to zero). -/
def animP0 : Player :=
  { id := 0, animActive := true }

/-- A player that can see object `5` only. -/
def visPlayer : Player :=
  { id := 0, visibleObjects := [5] }

/-- A session in which object `5` is full-dirty and player `0`
(visibility set `[5]`) is connected. -/
def visGame : Game :=
  { emptyGame with
    players := [visPlayer]
    connectedPlayers := [0]
    fullDirtyObjects := [5] }

/-- Player `0` of `visGame` after its broadcast-pass iteration. -/
def visAfter : Player :=
  broadcastPlayer visGame visPlayer

/-- A destructible obstacle with identity `1`. -/
def crateObj : GObj :=
  { id := 1, kind := ObjKind.obstacle, destructible := true }

/-- A world holding only `crateObj`. -/
def crateWorld : List GObj :=
  [crateObj]

/-- An oracle under which the probe overlaps object `1` at depth 5. -/
def crateOracle : Nat → Option Nat :=
  fun i => if i = 1 then some 5 else none

/-- A player with a pending shoot intent and a long-expired cooldown. -/
def shootPlayer : Player :=
  { id := 0, shootStart := true, meleeCooldown := 0 }

/-- A player whose shoot intent arrives 100 ms into the cooldown. -/
def coolingPlayer : Player :=
  { id := 0, shootStart := true, meleeCooldown := 900 }

/-- A second destructible obstacle, hit more deeply by the probe. -/
def deepCrate : GObj :=
  { id := 2, kind := ObjKind.obstacle, destructible := true }

/-- A world of two destructible obstacles, the deeper-hit one second. -/
def twoCrateWorld : List GObj :=
  [crateObj, deepCrate]

/-- An oracle hitting object `1` at depth 3 and object `2` at depth 7. -/
def twoCrateOracle : Nat → Option Nat :=
  fun i => if i = 1 then some 3 else if i = 2 then some 7 else none

/-! ### Movement (C5) -/

/-- Claim C5: for every active player the velocity written to the
physics collaborator is a pure function of the four directional input
booleans (first conjunct), with diagonal combinations checked first;
`{up,left}` yields `(-diagonalSpeed, diagonalSpeed)`, `{down}` alone
yields `(0, -speed)`, no input yields `(0, 0)`, and each remaining
single-direction and diagonal combination maps per the fixed table. -/
theorem movement_velocity_table (s ds : Int) (p : Player) :
    (processMovement s ds p).velocity
      = movementVelocity s ds p.movingUp p.movingDown p.movingLeft p.movingRight
    ∧ movementVelocity s ds true false true false = (-ds, ds)
    ∧ movementVelocity s ds true false false true = (ds, ds)
    ∧ movementVelocity s ds false true true false = (-ds, -ds)
    ∧ movementVelocity s ds false true false true = (ds, -ds)
    ∧ movementVelocity s ds true false false false = (0, s)
    ∧ movementVelocity s ds false true false false = (0, -s)
    ∧ movementVelocity s ds false false true false = (-s, 0)
    ∧ movementVelocity s ds false false false true = (s, 0)
    ∧ movementVelocity s ds false false false false = (0, 0) := by
  refine ⟨?_, rfl, rfl, rfl, rfl, rfl, rfl, rfl, rfl, rfl⟩
  cases hu : p.movingUp <;> cases hd : p.movingDown <;> cases hl : p.movingLeft <;>
    cases hr : p.movingRight <;>
      simp [processMovement, movementVelocity, hu, hd, hl, hr]

/-! ### Transient-state reset (C9) -/

/-- Claim C9 (amended): at the end of every tick callback the session's
transient buffers (emotes, explosions, kills, both dirty-object lists,
dirty players, deleted ids) are empty and the alive-count-dirty flag is
false. (The claim's corollary that every tick therefore *begins* with
empty buffers fails: see the counterexample, `addPlayer` and
`removePlayer` stage identities into these lists between ticks.) -/
theorem tick_resets_transient_state (s ds now : Int) (c : Nat → Nat → Option Nat) (g : Game) :
    (tick s ds now c g).emotes = []
    ∧ (tick s ds now c g).explosions = []
    ∧ (tick s ds now c g).kills = []
    ∧ (tick s ds now c g).fullDirtyObjects = []
    ∧ (tick s ds now c g).partialDirtyObjects = []
    ∧ (tick s ds now c g).dirtyPlayers = []
    ∧ (tick s ds now c g).deletedPlayerIds = []
    ∧ (tick s ds now c g).aliveCountDirty = false :=
  ⟨rfl, rfl, rfl, rfl, rfl, rfl, rfl, rfl⟩

/-- Claim C9, counterexample to the corollary "every tick begins with
these buffers empty": after a tick completes on `joinedGame` every
transient buffer is empty, yet an `addPlayer` arriving before the next
tick leaves the session's full-dirty list non-empty, so that next tick
begins with a non-empty buffer carried into it. -/
theorem buffers_not_empty_at_tick_start_after_join :
    (tick 3 2 1000 cOracleNone joinedGame).fullDirtyObjects = []
    ∧ (((tick 3 2 1000 cOracleNone joinedGame).addPlayer).1).fullDirtyObjects ≠ [] := by
  decide

/-! ### Double removal (C4) -/

/-- Claim C4, evaluated at the failing input: one join makes the alive
count 1; removing the player drops it to 0; removing the same player a
second time decrements *again*, to -1. The guard at `game.ts:256`
checks only `p.dead`, never whether the player is still in the
collections, so the second call is not a no-op for a living player. -/
theorem remove_player_double_decrement :
    joinedGame.aliveCount = 1
    ∧ (joinedGame.removePlayer 0).aliveCount = 0
    ∧ ((joinedGame.removePlayer 0).removePlayer 0).aliveCount = -1 := by
  decide

/-! ### Animation lifecycle (C8) -/

/-- While active with fewer than 8 elapsed ticks, one animation step
keeps the animation active and increments the elapsed counter. -/
theorem animStep_active_lt (p : Player) (hA : p.animActive = true) (h8 : p.animTime < 8) :
    (animStep p).animActive = true ∧ (animStep p).animTime = p.animTime + 1 := by
  have : ¬ (p.animTime + 1 > 8) := by omega
  simp [animStep, processAnim, hA, this]

/-- The step out of the active state: at 8 elapsed ticks the
post-increment check fires and everything resets. -/
theorem animStep_active_end (p : Player) (hA : p.animActive = true) (h8 : p.animTime = 8) :
    (animStep p).animActive = false ∧ (animStep p).animType = 0
    ∧ (animStep p).animSeq = 0 ∧ (animStep p).animTime = 0 := by
  simp [animStep, processAnim, hA, h8]

/-- An idle player stays idle under the animation block, its animation
fields untouched. -/
theorem animStep_idle (p : Player) (hA : p.animActive = false) :
    (animStep p).animActive = false ∧ (animStep p).animType = p.animType
    ∧ (animStep p).animSeq = p.animSeq ∧ (animStep p).animTime = p.animTime := by
  simp [animStep, processAnim, hA]

/-- Claim C8 (amended): a player whose attack animation enters the
active state during tick T (elapsed reset to 0 just before the
animation block of that same tick runs) increments the elapsed counter
each tick while active, and returns to idle exactly during tick T+8 —
the ninth processed tick, when elapsed reaches 9 > 8 at the
post-increment check — with type, sequence and elapsed reset to zero
and at most one active-to-idle transition per activation (it stays idle
from then on). Iteration k of `animStep` is the animation block of tick
T+k-1; the claim's "returns at tick T+9" is off by one because the
activation tick itself already runs the first post-increment check. -/
theorem anim_lifecycle (p : Player) (hA : p.animActive = true) (h0 : p.animTime = 0) :
    (∀ k, k ≤ 8 → (animStep^[k] p).animActive = true ∧ (animStep^[k] p).animTime = k)
    ∧ (∀ k, 9 ≤ k →
        (animStep^[k] p).animActive = false ∧ (animStep^[k] p).animType = 0
        ∧ (animStep^[k] p).animSeq = 0 ∧ (animStep^[k] p).animTime = 0) := by
  have base : ∀ k, k ≤ 8 → (animStep^[k] p).animActive = true ∧ (animStep^[k] p).animTime = k := by
    intro k
    induction k with
    | zero => intro _; simp [hA, h0]
    | succ n ih =>
      intro hk
      obtain ⟨ha, ht⟩ := ih (by omega)
      rw [Function.iterate_succ_apply']
      have := animStep_active_lt (animStep^[n] p) ha (by omega)
      exact ⟨this.1, by omega⟩
  refine ⟨base, ?_⟩
  have at9 : (animStep^[9] p).animActive = false ∧ (animStep^[9] p).animType = 0
      ∧ (animStep^[9] p).animSeq = 0 ∧ (animStep^[9] p).animTime = 0 := by
    obtain ⟨ha, ht⟩ := base 8 (by omega)
    have h9 : (9 : Nat) = 8 + 1 := rfl
    rw [h9, Function.iterate_succ_apply']
    exact animStep_active_end (animStep^[8] p) ha ht
  have tail : ∀ j, (animStep^[9 + j] p).animActive = false
      ∧ (animStep^[9 + j] p).animType = 0 ∧ (animStep^[9 + j] p).animSeq = 0
      ∧ (animStep^[9 + j] p).animTime = 0 := by
    intro j
    induction j with
    | zero => exact at9
    | succ m ih =>
      have hs : 9 + (m + 1) = (9 + m) + 1 := by omega
      rw [hs, Function.iterate_succ_apply']
      obtain ⟨ha, htyp, hseq, ht⟩ := ih
      obtain ⟨ha2, htyp2, hseq2, ht2⟩ := animStep_idle (animStep^[9 + m] p) ha
      exact ⟨ha2, by omega, by omega, by omega⟩
  intro k hk
  have hk9 : k = 9 + (k - 9) := by omega
  rw [hk9]
  exact tail (k - 9)

/-- Claim C8, witness: applying `anim_lifecycle` to the concrete
just-activated player shows elapsed 5 after five steps and idle after
nine. -/
theorem anim_lifecycle_witness :
    (animStep^[5] animP0).animTime = 5 ∧ (animStep^[9] animP0).animActive = false :=
  ⟨((anim_lifecycle animP0 rfl rfl).1 5 (by omega)).2,
   ((anim_lifecycle animP0 rfl rfl).2 9 (by omega)).1⟩

/-- Claim C8, counterexample to "returns to idle exactly at tick T+9":
the activation tick T is iteration 1, so iteration 9 is tick T+8; after
it (elapsed having reached 9 > 8) the animation is already idle, while
the claim as stated puts the transition one tick later. After iteration
8 (tick T+7) it is still active with elapsed 8. -/
theorem anim_returns_to_idle_on_ninth_tick :
    (animStep^[8] animP0).animActive = true ∧ (animStep^[8] animP0).animTime = 8
    ∧ (animStep^[9] animP0).animActive = false := by
  decide

/-! ### Shoot-start processing (C10, C6) -/

/-- Exhaustive case analysis of the shoot block: no intent (identity),
intent inside the cooldown (flag consumed, nothing else), or a resolved
attack (cooldown stamped, animation started when idle, the scan's
selection damaged). -/
theorem processShoot_cases (now : Int) (c : Nat → Option Nat) (objs : List GObj) (p : Player) :
    (p.shootStart = false ∧ processShoot now c objs p = (p, [], []))
    ∨ (p.shootStart = true ∧ now - p.meleeCooldown < 250
        ∧ processShoot now c objs p = ({ p with shootStart := false }, [], []))
    ∨ (p.shootStart = true ∧ 250 ≤ now - p.meleeCooldown
        ∧ (processShoot now c objs p).1
            = (if p.animActive = true then { p with shootStart := false, meleeCooldown := now }
               else { p with shootStart := false, meleeCooldown := now,
                             animActive := true, animType := 1, animTime := 0 })
        ∧ (processShoot now c objs p).2.1
            = (match meleeScan p.id c objs with
               | some o => [{ target := o.id, amount := 24, attacker := p.id }]
               | none => [])) := by
  by_cases h1 : p.shootStart = true
  · by_cases h2 : 250 ≤ now - p.meleeCooldown
    · refine Or.inr (Or.inr ⟨h1, h2, ?_, ?_⟩) <;>
        · by_cases h3 : p.animActive = true <;>
            rcases hm : meleeScan p.id c objs with _ | o <;>
              simp [processShoot, h1, h2, h3, hm]
    · exact Or.inr (Or.inl ⟨h1, by omega, by simp [processShoot, h1, h2]⟩)
  · have h1' : p.shootStart = false := by simpa using h1
    exact Or.inl ⟨h1', by simp [processShoot, h1']⟩

/-- One shoot-block invocation produces at most one damage event (the
selection loop keeps a single best object). -/
theorem processShoot_events_len (now : Int) (c : Nat → Option Nat) (objs : List GObj)
    (p : Player) : (processShoot now c objs p).2.1.length ≤ 1 := by
  rcases processShoot_cases now c objs p with ⟨_, h⟩ | ⟨_, _, h⟩ | ⟨_, _, _, h⟩
  · simp [h]
  · simp [h]
  · rw [h]
    rcases meleeScan p.id c objs with _ | o <;> simp

/-- Claim C10: the shoot-start flag is cleared before the cooldown
check (after any processing the flag is down, first conjunct); an
intent arriving inside the 250 ms cooldown is consumed and discarded —
the only state change is the cleared flag, no damage and no interaction
(second conjunct); and with the flag down the shoot block does nothing,
so a discarded intent can never fire on a later tick without a new
intent (third conjunct). -/
theorem shoot_intent_consumed_not_deferred (now : Int) (c : Nat → Option Nat)
    (objs : List GObj) (p : Player) :
    (processShoot now c objs p).1.shootStart = false
    ∧ (p.shootStart = true → now - p.meleeCooldown < 250 →
        processShoot now c objs p = ({ p with shootStart := false }, [], []))
    ∧ (p.shootStart = false → processShoot now c objs p = (p, [], [])) := by
  refine ⟨?_, ?_, ?_⟩
  · rcases processShoot_cases now c objs p with ⟨h0, h⟩ | ⟨_, _, h⟩ | ⟨_, _, h, _⟩
    · rw [h]; exact h0
    · rw [h]
    · rw [h]
      by_cases h3 : p.animActive = true <;> simp [h3]
  · intro h1 h2
    rcases processShoot_cases now c objs p with ⟨h0, _⟩ | ⟨_, _, h⟩ | ⟨_, hc, _, _⟩
    · rw [h0] at h1; cases h1
    · exact h
    · omega
  · intro h1
    rcases processShoot_cases now c objs p with ⟨_, h⟩ | ⟨h0, _, _⟩ | ⟨h0, _, _, _⟩
    · exact h
    · rw [h0] at h1; cases h1
    · rw [h0] at h1; cases h1

/-- Claim C10, witness: a concrete intent arriving 100 ms into the
cooldown is consumed (flag cleared, no other change, no damage). -/
theorem shoot_intent_consumed_witness :
    processShoot 1000 crateOracle crateWorld coolingPlayer
      = ({ coolingPlayer with shootStart := false }, [], []) :=
  (shoot_intent_consumed_not_deferred 1000 crateOracle crateWorld coolingPlayer).2.1
    rfl (by decide)

/-- Claim C6: two shoot-start triggers processed less than 250 ms apart
(the second re-arming the intent flag) produce at most one damage event
between them; an attack resolves only when at least 250 ms has elapsed
since the previous melee action; and on resolution the cooldown
timestamp becomes the processing time. -/
theorem melee_cooldown_at_most_one_damage (p : Player) (t1 t2 : Int)
    (c1 c2 : Nat → Option Nat) (o1 o2 : List GObj) (h : t2 - t1 < 250) :
    ((processShoot t1 c1 o1 p).2.1
      ++ (processShoot t2 c2 o2 { (processShoot t1 c1 o1 p).1 with shootStart := true }).2.1).length ≤ 1
    ∧ ((processShoot t1 c1 o1 p).2.1 ≠ [] → 250 ≤ t1 - p.meleeCooldown)
    ∧ (p.shootStart = true → 250 ≤ t1 - p.meleeCooldown →
        (processShoot t1 c1 o1 p).1.meleeCooldown = t1) := by
  rcases processShoot_cases t1 c1 o1 p with ⟨h0, h1⟩ | ⟨h0, hc, h1⟩ | ⟨h0, hc, h1, he⟩
  · refine ⟨?_, ?_, ?_⟩
    · rw [h1]
      simpa using processShoot_events_len t2 c2 o2 { p with shootStart := true }
    · rw [h1]; intro hne; cases hne rfl
    · intro hs; rw [h0] at hs; cases hs
  · refine ⟨?_, ?_, ?_⟩
    · rw [h1]
      simpa using
        processShoot_events_len t2 c2 o2
          { ({ p with shootStart := false } : Player) with shootStart := true }
    · rw [h1]; intro hne; cases hne rfl
    · intro _ hc2; omega
  · refine ⟨?_, ?_, ?_⟩
    · have hcool : ({ (processShoot t1 c1 o1 p).1 with shootStart := true } : Player).meleeCooldown = t1 := by
        rw [h1]; by_cases h3 : p.animActive = true <;> simp [h3]
      have hs2 : ({ (processShoot t1 c1 o1 p).1 with shootStart := true } : Player).shootStart = true := rfl
      rcases processShoot_cases t2 c2 o2 { (processShoot t1 c1 o1 p).1 with shootStart := true }
        with ⟨hb, _⟩ | ⟨_, _, hb⟩ | ⟨_, hbc, _, _⟩
      · rw [hs2] at hb; cases hb
      · rw [hb]
        simpa using processShoot_events_len t1 c1 o1 p
      · rw [hcool] at hbc; omega
    · intro _; exact hc
    · intro _ _
      rw [h1]; by_cases h3 : p.animActive = true <;> simp [h3]

/-- Claim C6, witness: a concrete pair of triggers 100 ms apart, the
first hitting a crate, yields one damage event in total. -/
theorem melee_cooldown_witness :
    ((processShoot 1000 crateOracle crateWorld shootPlayer).2.1
      ++ (processShoot 1100 crateOracle crateWorld
            { (processShoot 1000 crateOracle crateWorld shootPlayer).1
              with shootStart := true }).2.1).length ≤ 1 :=
  (melee_cooldown_at_most_one_damage shootPlayer 1000 1100 crateOracle crateOracle
    crateWorld crateWorld (by omega)).1

/-! ### Melee target selection (C7) -/

/-- Unrolling one iteration of the selection loop: the head replaces
the running best exactly when it is a candidate (body, alive, not the
attacker, damageable kind, colliding) whose depth strictly exceeds the
running maximum. -/
theorem meleeScanAux_cons (aid : Nat) (c : Nat → Option Nat) (o : GObj) (rest : List GObj)
    (d : Int) (b : Option GObj) :
    meleeScanAux aid c (o :: rest) d b
      = if meleeCandidate aid c o = true ∧ d < (candDepth c o : Int)
        then meleeScanAux aid c rest (candDepth c o) (some o)
        else meleeScanAux aid c rest d b := by
  cases h1 : (!o.hasBody || o.dead || o.id == aid) with
  | true =>
    have hcand : meleeCandidate aid c o = false := by simp [meleeCandidate, h1]
    rw [if_neg (by simp [hcand])]
    simp [meleeScanAux, h1]
  | false =>
    cases h2 : ((o.kind == ObjKind.obstacle && o.destructible) || o.kind == ObjKind.player) with
    | false =>
      have hcand : meleeCandidate aid c o = false := by
        simp only [meleeCandidate, h1, h2]
        simp
      rw [if_neg (by simp [hcand])]
      simp [meleeScanAux, h1, h2]
    | true =>
      rcases hc : c o.id with _ | d0
      · have hcand : meleeCandidate aid c o = false := by
          simp [meleeCandidate, h1, h2, hc]
        rw [if_neg (by simp [hcand])]
        simp [meleeScanAux, h1, h2, hc]
      · have hcand : meleeCandidate aid c o = true := by
          simp [meleeCandidate, h1, h2, hc]
        have hdep : candDepth c o = d0 := by simp [candDepth, hc]
        rw [hdep]
        by_cases h3 : d < (d0 : Int)
        · rw [if_pos ⟨hcand, h3⟩]
          simp [meleeScanAux, h1, h2, hc, h3]
        · rw [if_neg (fun hq => h3 hq.2)]
          simp [meleeScanAux, h1, h2, hc, h3]

/-- If nothing in the remaining list is a candidate strictly deeper
than the running maximum, the loop returns the running best. -/
theorem meleeScanAux_stay (aid : Nat) (c : Nat → Option Nat) :
    ∀ (l : List GObj) (d : Int) (b : Option GObj),
      (∀ o ∈ l, meleeCandidate aid c o = true → (candDepth c o : Int) ≤ d) →
      meleeScanAux aid c l d b = b := by
  intro l
  induction l with
  | nil => intro d b _; rfl
  | cons o t ih =>
    intro d b h
    rw [meleeScanAux_cons, if_neg]
    · exact ih d b (fun x hx hcx => h x (List.mem_cons_of_mem o hx) hcx)
    · rintro ⟨hc, hd⟩
      have := h o (List.mem_cons_self o t) hc
      omega

/-- The loop selects a candidate that strictly beats the running
maximum, beats every earlier candidate strictly, and is not beaten by
any later candidate. -/
theorem meleeScanAux_select (aid : Nat) (c : Nat → Option Nat) :
    ∀ (l1 : List GObj) (o : GObj) (l2 : List GObj) (d : Int) (b : Option GObj),
      meleeCandidate aid c o = true → d < (candDepth c o : Int) →
      (∀ x ∈ l1, meleeCandidate aid c x = true → candDepth c x < candDepth c o) →
      (∀ x ∈ l2, meleeCandidate aid c x = true → candDepth c x ≤ candDepth c o) →
      meleeScanAux aid c (l1 ++ o :: l2) d b = some o := by
  intro l1
  induction l1 with
  | nil =>
    intro o l2 d b hc hd h1 h2
    rw [List.nil_append, meleeScanAux_cons, if_pos ⟨hc, hd⟩]
    exact meleeScanAux_stay aid c l2 (candDepth c o) (some o)
      (fun x hx hcx => by exact_mod_cast h2 x hx hcx)
  | cons a t ih =>
    intro o l2 d b hc hd h1 h2
    rw [List.cons_append, meleeScanAux_cons]
    by_cases ha : meleeCandidate aid c a = true ∧ d < (candDepth c a : Int)
    · rw [if_pos ha]
      refine ih o l2 (candDepth c a) (some a) hc ?_ ?_ h2
      · have := h1 a (List.mem_cons_self a _) ha.1
        exact_mod_cast this
      · exact fun x hx hcx => h1 x (List.mem_cons_of_mem a hx) hcx
    · rw [if_neg ha]
      exact ih o l2 d b hc hd (fun x hx hcx => h1 x (List.mem_cons_of_mem a hx) hcx) h2

/-- Any list containing a candidate splits at its first
deepest candidate: all earlier candidates are strictly shallower, all
later ones no deeper. -/
theorem exists_first_max (aid : Nat) (c : Nat → Option Nat) :
    ∀ (l : List GObj), (∃ o ∈ l, meleeCandidate aid c o = true) →
      ∃ l1 o l2, l = l1 ++ o :: l2 ∧ meleeCandidate aid c o = true
        ∧ (∀ x ∈ l1, meleeCandidate aid c x = true → candDepth c x < candDepth c o)
        ∧ (∀ x ∈ l2, meleeCandidate aid c x = true → candDepth c x ≤ candDepth c o) := by
  intro l
  induction l with
  | nil =>
    rintro ⟨o, ho, _⟩
    exact absurd ho (List.not_mem_nil o)
  | cons a t ih =>
    intro hex
    by_cases hT : ∃ x ∈ t, meleeCandidate aid c x = true
    · obtain ⟨l1, b, l2, ht, hcb, hb1, hb2⟩ := ih hT
      by_cases hca : meleeCandidate aid c a = true
      · by_cases hab : candDepth c b ≤ candDepth c a
        · refine ⟨[], a, t, by simp, hca, by simp, ?_⟩
          intro x hx hcx
          rw [ht] at hx
          rcases List.mem_append.mp hx with hx1 | hx2
          · exact le_trans (le_of_lt (hb1 x hx1 hcx)) hab
          · rcases List.mem_cons.mp hx2 with rfl | hx3
            · exact hab
            · exact le_trans (hb2 x hx3 hcx) hab
        · refine ⟨a :: l1, b, l2, by rw [ht]; rfl, hcb, ?_, hb2⟩
          intro x hx hcx
          rcases List.mem_cons.mp hx with rfl | hx1
          · omega
          · exact hb1 x hx1 hcx
      · refine ⟨a :: l1, b, l2, by rw [ht]; rfl, hcb, ?_, hb2⟩
        intro x hx hcx
        rcases List.mem_cons.mp hx with rfl | hx1
        · exact absurd hcx hca
        · exact hb1 x hx1 hcx
    · obtain ⟨o, ho, hco⟩ := hex
      rcases List.mem_cons.mp ho with rfl | hot
      · refine ⟨[], o, t, by simp, hco, by simp, ?_⟩
        intro x hx hcx
        exact absurd ⟨x, hx, hcx⟩ hT
      · exact absurd ⟨o, hot, hco⟩ hT

/-- Claim C7: the probe is tested against every object that has a body,
is not dead and is not the attacker, restricted to destructible
obstacles and players (`meleeCandidate` is exactly that filter); the
scan returns nothing precisely when no such overlapping candidate
exists; any returned object is a candidate of greatest penetration
depth, with ties resolved for the first in iteration order (earlier
candidates strictly shallower, later ones no deeper); and the selected
target of a resolved attack receives exactly one damage event of
amount 24 attributed to the attacker. -/
theorem melee_target_selection (aid : Nat) (c : Nat → Option Nat) (objs : List GObj) :
    (meleeScan aid c objs = none ↔ ∀ o ∈ objs, meleeCandidate aid c o = false)
    ∧ (∀ o, meleeScan aid c objs = some o →
        meleeCandidate aid c o = true
        ∧ ∃ l1 l2, objs = l1 ++ o :: l2
            ∧ (∀ x ∈ l1, meleeCandidate aid c x = true → candDepth c x < candDepth c o)
            ∧ (∀ x ∈ l2, meleeCandidate aid c x = true → candDepth c x ≤ candDepth c o))
    ∧ (∀ (now : Int) (p : Player), (processShoot now c objs p).2.1
        = if p.shootStart = true ∧ 250 ≤ now - p.meleeCooldown then
            (match meleeScan p.id c objs with
             | some o => [{ target := o.id, amount := 24, attacker := p.id }]
             | none => [])
          else []) := by
  have hnone : (∀ o ∈ objs, meleeCandidate aid c o = false) → meleeScan aid c objs = none := by
    intro h
    exact meleeScanAux_stay aid c objs (-1) none
      (fun o ho hc => by rw [h o ho] at hc; cases hc)
  have hsome : (∃ o ∈ objs, meleeCandidate aid c o = true) →
      ∃ l1 o l2, objs = l1 ++ o :: l2 ∧ meleeCandidate aid c o = true
        ∧ (∀ x ∈ l1, meleeCandidate aid c x = true → candDepth c x < candDepth c o)
        ∧ (∀ x ∈ l2, meleeCandidate aid c x = true → candDepth c x ≤ candDepth c o)
        ∧ meleeScan aid c objs = some o := by
    intro hex
    obtain ⟨l1, o, l2, hsplit, hc, h1, h2⟩ := exists_first_max aid c objs hex
    refine ⟨l1, o, l2, hsplit, hc, h1, h2, ?_⟩
    rw [meleeScan, hsplit]
    exact meleeScanAux_select aid c l1 o l2 (-1) none hc (by omega) h1 h2
  refine ⟨⟨?_, hnone⟩, ?_, ?_⟩
  · intro hn o ho
    cases hcand : meleeCandidate aid c o with
    | false => rfl
    | true =>
      obtain ⟨l1, o', l2, _, _, _, _, hs⟩ := hsome ⟨o, ho, hcand⟩
      rw [hn] at hs
      cases hs
  · intro o hso
    by_cases hex : ∃ x ∈ objs, meleeCandidate aid c x = true
    · obtain ⟨l1, o', l2, hsplit, hc, h1, h2, hs⟩ := hsome hex
      rw [hso] at hs
      cases Option.some.inj hs
      exact ⟨hc, l1, l2, hsplit, h1, h2⟩
    · have hall : ∀ x ∈ objs, meleeCandidate aid c x = false := by
        intro x hx
        cases hcand : meleeCandidate aid c x with
        | false => rfl
        | true => exact absurd ⟨x, hx, hcand⟩ hex
      have := hnone hall
      rw [hso] at this
      cases this
  · intro now p
    rcases processShoot_cases now c objs p with ⟨h0, h⟩ | ⟨h0, hcz, h⟩ | ⟨h0, hcz, _, he⟩
    · rw [h, if_neg]
      rintro ⟨hq, _⟩
      rw [h0] at hq
      cases hq
    · rw [h, if_neg]
      rintro ⟨_, hq⟩
      omega
    · rw [he, if_pos ⟨h0, hcz⟩]

/-- Claim C7, witness: in the two-crate world the scan selects the
deeper-hit crate, and `melee_target_selection` certifies it as an
overlapping candidate. -/
theorem melee_target_selection_witness :
    meleeCandidate 0 twoCrateOracle deepCrate = true :=
  ((melee_target_selection 0 twoCrateOracle twoCrateWorld).2.1 deepCrate (by decide)).1

/-! ### Heap lemmas and broadcast visibility (C1) -/

/-- A successful dereference returns a player carrying the identity. -/
theorem findPlayer_id (g : Game) (pid : Nat) (p : Player)
    (h : findPlayer g pid = some p) : p.id = pid := by
  have := List.find?_some h
  simpa using this

/-- Updating the shared object with identity `pid` is observed by a
dereference of `pid`, provided the update preserves the identity. -/
theorem findPlayer_update_self (g : Game) (pid : Nat) (f : Player → Player)
    (hf : ∀ q : Player, q.id = pid → (f q).id = pid) :
    findPlayer (updatePlayer g pid f) pid = Option.map f (findPlayer g pid) := by
  show (g.players.map (fun q => if q.id == pid then f q else q)).find? (fun q => q.id == pid)
      = Option.map f (g.players.find? (fun q => q.id == pid))
  induction g.players with
  | nil => rfl
  | cons a t ih =>
    rw [List.map_cons]
    by_cases h : a.id = pid
    · have hb : (a.id == pid) = true := by simpa using h
      have hfb : ((f a).id == pid) = true := by simpa using hf a h
      rw [if_pos hb, List.find?_cons_of_pos (p := fun (q : Player) => q.id == pid) _ hfb,
          List.find?_cons_of_pos (p := fun (q : Player) => q.id == pid) _ hb]
      rfl
    · have hb : (a.id == pid) = false := by simpa using h
      rw [if_neg (by simp [hb]),
          List.find?_cons_of_neg (p := fun (q : Player) => q.id == pid) _ (by simp [hb]),
          List.find?_cons_of_neg (p := fun (q : Player) => q.id == pid) _ (by simp [hb])]
      exact ih

/-- Updating the shared object with identity `pid` is invisible to a
dereference of any other identity, provided the update preserves the
identity. -/
theorem findPlayer_update_ne (g : Game) (pid x : Nat) (f : Player → Player)
    (hf : ∀ q : Player, q.id = pid → (f q).id = pid) (hx : x ≠ pid) :
    findPlayer (updatePlayer g pid f) x = findPlayer g x := by
  show (g.players.map (fun q => if q.id == pid then f q else q)).find? (fun q => q.id == x)
      = g.players.find? (fun q => q.id == x)
  induction g.players with
  | nil => rfl
  | cons a t ih =>
    rw [List.map_cons]
    by_cases h : a.id = pid
    · have hb : (a.id == pid) = true := by simpa using h
      have h1 : ((f a).id == x) = false := by
        rw [hf a h]
        simpa using fun hq => hx hq.symm
      have h2 : (a.id == x) = false := by
        rw [h]
        simpa using fun hq => hx hq.symm
      rw [if_pos hb, List.find?_cons_of_neg (p := fun (q : Player) => q.id == x) _ (by simp [h1]),
          List.find?_cons_of_neg (p := fun (q : Player) => q.id == x) _ (by simp [h2])]
      exact ih
    · have hb : (a.id == pid) = false := by simpa using h
      rw [if_neg (by simp [hb])]
      by_cases h2 : a.id = x
      · have h2b : (a.id == x) = true := by simpa using h2
        rw [List.find?_cons_of_pos (p := fun (q : Player) => q.id == x) _ h2b,
            List.find?_cons_of_pos (p := fun (q : Player) => q.id == x) _ h2b]
      · have h2b : (a.id == x) = false := by simpa using h2
        rw [List.find?_cons_of_neg (p := fun (q : Player) => q.id == x) _ (by simp [h2b]),
            List.find?_cons_of_neg (p := fun (q : Player) => q.id == x) _ (by simp [h2b])]
        exact ih

/-- The broadcast-pass update of one player: identity and visibility
set are untouched, and each diff buffer either stays as it was or grows
by exactly the session dirty list filtered through the player's own
visibility set. -/
theorem broadcastPlayer_fields (g : Game) (p : Player) :
    (broadcastPlayer g p).id = p.id
    ∧ (broadcastPlayer g p).visibleObjects = p.visibleObjects
    ∧ ((broadcastPlayer g p).fullObjects = p.fullObjects
        ∨ (broadcastPlayer g p).fullObjects
            = p.fullObjects ++ g.fullDirtyObjects.filter (fun oid => p.visibleObjects.contains oid))
    ∧ ((broadcastPlayer g p).partialObjects = p.partialObjects
        ∨ (broadcastPlayer g p).partialObjects
            = p.partialObjects
              ++ g.partialDirtyObjects.filter (fun oid => p.visibleObjects.contains oid)) := by
  by_cases h1 : g.emotes.length > 0 <;> by_cases h2 : g.explosions.length > 0 <;>
    by_cases h3 : g.fullDirtyObjects.length > 0 <;>
      by_cases h4 : g.partialDirtyObjects.length > 0 <;>
        simp [broadcastPlayer, h1, h2, h3, h4]

/-- Claim C1 (amended): during the per-client broadcast pass, every
identity newly appended to a connected player's private `fullObjects`
or `partialObjects` buffer is a member of that player's own visibility
set — an identity from the session-wide dirty lists is delivered only
if visible. (The claim as stated over the whole tick fails: the
resolver pass pushes the player's own identity into its own buffers
with no visibility check; see the counterexample.) -/
theorem broadcast_delivers_only_visible (g : Game) (pid : Nat) (p p2 : Player)
    (hp : findPlayer g pid = some p)
    (hp2 : findPlayer (broadcastStep g pid) pid = some p2) (x : Nat) :
    (x ∈ p2.fullObjects → x ∈ p.fullObjects ∨ x ∈ p.visibleObjects)
    ∧ (x ∈ p2.partialObjects → x ∈ p.partialObjects ∨ x ∈ p.visibleObjects) := by
  have hid : p.id = pid := findPlayer_id g pid p hp
  have hbid : (broadcastPlayer g p).id = p.id := (broadcastPlayer_fields g p).1
  have hstep : broadcastStep g pid = updatePlayer g pid (fun _ => broadcastPlayer g p) := by
    simp only [broadcastStep, hp]
  rw [hstep, findPlayer_update_self g pid _ (fun q _ => by rw [hbid, hid]), hp] at hp2
  have hp2' : p2 = broadcastPlayer g p := (Option.some.inj hp2).symm
  subst hp2'
  obtain ⟨_, _, hfull, hpart⟩ := broadcastPlayer_fields g p
  constructor
  · intro hx
    rcases hfull with he | he
    · rw [he] at hx
      exact Or.inl hx
    · rw [he] at hx
      rcases List.mem_append.mp hx with hx1 | hx2
      · exact Or.inl hx1
      · have := List.mem_filter.mp hx2
        exact Or.inr (by simpa using this.2)
  · intro hx
    rcases hpart with he | he
    · rw [he] at hx
      exact Or.inl hx
    · rw [he] at hx
      rcases List.mem_append.mp hx with hx1 | hx2
      · exact Or.inl hx1
      · have := List.mem_filter.mp hx2
        exact Or.inr (by simpa using this.2)

/-- Claim C1, witness: in `visGame` the broadcast pass delivers
identity `5` to player `0`, and `broadcast_delivers_only_visible`
certifies that `5` was already buffered or visible — here, visible. -/
theorem broadcast_delivers_only_visible_witness :
    5 ∈ visPlayer.fullObjects ∨ 5 ∈ visPlayer.visibleObjects :=
  (broadcast_delivers_only_visible visGame 0 visPlayer visAfter
    (by decide) (by decide) 5).1 (by decide)

/-- Claim C1, counterexample to the claim as stated: in `soloGame` the
connected, active player has an empty visibility set, yet after one
tick its own identity `0` has been delivered into its private
`partialObjects` buffer by the resolver pass (`game.ts:173`), which
pushes `p.id` without any visibility check. -/
theorem self_identity_delivered_outside_visibility :
    ((findPlayer (tick 3 2 1000 cOracleNone soloGame) 0).map
        (fun q => q.partialObjects)).getD [] = [0]
    ∧ ((findPlayer (tick 3 2 1000 cOracleNone soloGame) 0).map
        (fun q => q.visibleObjects)).getD [0] = [] := by
  decide

/-! ### Dirty-list disjointness (C2) -/

/-- Movement never changes a player's identity. -/
theorem processMovement_id (s ds : Int) (p : Player) : (processMovement s ds p).id = p.id := by
  cases hu : p.movingUp <;> cases hd : p.movingDown <;> cases hl : p.movingLeft <;>
    cases hr : p.movingRight <;> simp [processMovement, hu, hd, hl, hr]

/-- The shoot block never changes a player's identity. -/
theorem processShoot_id (now : Int) (c : Nat → Option Nat) (objs : List GObj) (p : Player) :
    (processShoot now c objs p).1.id = p.id := by
  rcases processShoot_cases now c objs p with ⟨_, h⟩ | ⟨_, _, h⟩ | ⟨_, _, h, _⟩
  · rw [h]
  · rw [h]
  · rw [h]
    by_cases h3 : p.animActive = true <;> simp [h3]

/-- The animation block never changes a player's identity. -/
theorem processAnim_id (p : Player) : (processAnim p).1.id = p.id := by
  by_cases h : p.animActive = true
  · by_cases h8 : p.animTime + 1 > 8 <;> simp [processAnim, h, h8]
  · have h' : p.animActive = false := by simpa using h
    simp [processAnim, h']

/-- One first-loop iteration appends the processed player's identity to
exactly one of the two session dirty lists and touches neither
otherwise. -/
theorem tickPlayerStep_dirty (s ds now : Int) (c : Nat → Nat → Option Nat)
    (g : Game) (pid : Nat) :
    ∃ fa pa : List Nat,
      (tickPlayerStep s ds now c g pid).fullDirtyObjects = g.fullDirtyObjects ++ fa
      ∧ (tickPlayerStep s ds now c g pid).partialDirtyObjects = g.partialDirtyObjects ++ pa
      ∧ (∀ x, x ∈ fa ++ pa → x = pid) ∧ (fa = [] ∨ pa = []) := by
  rcases hfp : findPlayer g pid with _ | p
  · exact ⟨[], [], by simp [tickPlayerStep, hfp], by simp [tickPlayerStep, hfp],
      by simp, Or.inl rfl⟩
  · have hpid : p.id = pid := findPlayer_id g pid p hfp
    have hid : (processAnim (processShoot now (c pid) g.objects
        (processMovement s ds p)).1).1.id = pid := by
      rw [processAnim_id, processShoot_id, processMovement_id, hpid]
    by_cases hb : (processAnim (processShoot now (c pid) g.objects
        (processMovement s ds p)).1).2 = true
    · refine ⟨[pid], [], ?_, ?_, by simp, Or.inr rfl⟩ <;>
        simp [tickPlayerStep, hfp, hb, hid, updatePlayer]
    · have hb' : (processAnim (processShoot now (c pid) g.objects
          (processMovement s ds p)).1).2 = false := by simpa using hb
      refine ⟨[], [pid], ?_, ?_, by simp, Or.inl rfl⟩ <;>
        simp [tickPlayerStep, hfp, hb', hid, updatePlayer]

/-- Folding the first loop over distinct identities, starting from
dirty lists none of those identities occupy, preserves disjointness of
the two lists. -/
theorem firstLoop_go_disjoint (s ds now : Int) (c : Nat → Nat → Option Nat) :
    ∀ (l : List Nat) (g : Game), l.Nodup →
      (∀ pid ∈ l, pid ∉ g.fullDirtyObjects ∧ pid ∉ g.partialDirtyObjects) →
      (∀ x, ¬(x ∈ g.fullDirtyObjects ∧ x ∈ g.partialDirtyObjects)) →
      ∀ x, ¬(x ∈ (List.foldl (fun acc pid => tickPlayerStep s ds now c acc pid) g l).fullDirtyObjects
            ∧ x ∈ (List.foldl (fun acc pid => tickPlayerStep s ds now c acc pid) g l).partialDirtyObjects) := by
  intro l
  induction l with
  | nil => intro g _ _ hdis x; exact hdis x
  | cons pid0 t ih =>
    intro g hnodup hfresh hdis x
    rw [List.foldl_cons]
    obtain ⟨hp0t, hnodup'⟩ := List.nodup_cons.mp hnodup
    obtain ⟨fa, pa, hfull, hpart, hmem, hdisj⟩ := tickPlayerStep_dirty s ds now c g pid0
    refine ih (tickPlayerStep s ds now c g pid0) hnodup' ?_ ?_ x
    · intro q hq
      have hqne : q ≠ pid0 := fun hqe => hp0t (hqe ▸ hq)
      constructor
      · rw [hfull]
        intro hmemq
        rcases List.mem_append.mp hmemq with hq1 | hq2
        · exact (hfresh q (List.mem_cons_of_mem pid0 hq)).1 hq1
        · exact hqne (hmem q (List.mem_append_left pa hq2))
      · rw [hpart]
        intro hmemq
        rcases List.mem_append.mp hmemq with hq1 | hq2
        · exact (hfresh q (List.mem_cons_of_mem pid0 hq)).2 hq1
        · exact hqne (hmem q (List.mem_append_right fa hq2))
    · rintro y ⟨hy1, hy2⟩
      rw [hfull] at hy1
      rw [hpart] at hy2
      rcases List.mem_append.mp hy1 with ha1 | ha2 <;> rcases List.mem_append.mp hy2 with hb1 | hb2
      · exact hdis y ⟨ha1, hb1⟩
      · have : y = pid0 := hmem y (List.mem_append_right fa hb2)
        exact (hfresh pid0 (List.mem_cons_self pid0 t)).1 (this ▸ ha1)
      · have : y = pid0 := hmem y (List.mem_append_left pa ha2)
        exact (hfresh pid0 (List.mem_cons_self pid0 t)).2 (this ▸ hb1)
      · rcases hdisj with he | he
        · rw [he] at ha2; exact absurd ha2 (List.not_mem_nil y)
        · rw [he] at hb2; exact absurd hb2 (List.not_mem_nil y)

/-- One broadcast-pass iteration never touches the session dirty
lists. -/
theorem broadcastStep_dirty (g : Game) (pid : Nat) :
    (broadcastStep g pid).fullDirtyObjects = g.fullDirtyObjects
    ∧ (broadcastStep g pid).partialDirtyObjects = g.partialDirtyObjects := by
  rcases hfp : findPlayer g pid with _ | p <;> simp [broadcastStep, hfp, updatePlayer]

/-- The whole broadcast pass never touches the session dirty lists. -/
theorem secondLoop_go_dirty (l : List Nat) :
    ∀ g : Game,
      (List.foldl broadcastStep g l).fullDirtyObjects = g.fullDirtyObjects
      ∧ (List.foldl broadcastStep g l).partialDirtyObjects = g.partialDirtyObjects := by
  induction l with
  | nil => intro g; exact ⟨rfl, rfl⟩
  | cons a t ih =>
    intro g
    rw [List.foldl_cons]
    obtain ⟨h1, h2⟩ := ih (broadcastStep g a)
    obtain ⟨h3, h4⟩ := broadcastStep_dirty g a
    exact ⟨h1.trans h3, h2.trans h4⟩

/-- Claim C2 (amended): when a tick starts with both session dirty
lists empty (no join/leave staged entries since the last reset) and the
active collection holds no duplicate identities, the full-dirty and
partial-dirty lists are disjoint at the moment the broadcast pass runs
— each active player contributes its identity to exactly one list — and
the broadcast pass itself leaves both lists unchanged, so disjointness
holds throughout it. (Unconditionally the claim fails: `addPlayer` /
`removePlayer` push into these lists between ticks, see the
counterexample.) -/
theorem dirty_lists_disjoint_when_tick_starts_clean (s ds now : Int)
    (c : Nat → Nat → Option Nat) (g : Game)
    (h1 : g.fullDirtyObjects = []) (h2 : g.partialDirtyObjects = [])
    (h3 : g.activePlayers.Nodup) :
    (∀ x, ¬(x ∈ (firstLoop s ds now c g).fullDirtyObjects
          ∧ x ∈ (firstLoop s ds now c g).partialDirtyObjects))
    ∧ (secondLoop (firstLoop s ds now c g)).fullDirtyObjects
        = (firstLoop s ds now c g).fullDirtyObjects
    ∧ (secondLoop (firstLoop s ds now c g)).partialDirtyObjects
        = (firstLoop s ds now c g).partialDirtyObjects := by
  refine ⟨?_, (secondLoop_go_dirty _ _).1, (secondLoop_go_dirty _ _).2⟩
  exact firstLoop_go_disjoint s ds now c g.activePlayers g h3
    (fun pid _ => ⟨by simp [h1], by simp [h2]⟩)
    (fun x hx => by rw [h1] at hx; exact absurd hx.1 (List.not_mem_nil x))

/-- Claim C2, witness: a clean-start one-player tick keeps identity `0`
out of at least one of the two dirty lists. -/
theorem dirty_lists_disjoint_witness :
    ¬(0 ∈ (firstLoop 3 2 1000 cOracleNone soloGame).fullDirtyObjects
      ∧ 0 ∈ (firstLoop 3 2 1000 cOracleNone soloGame).partialDirtyObjects) :=
  (dirty_lists_disjoint_when_tick_starts_clean 3 2 1000 cOracleNone soloGame
    rfl rfl (by decide)).1 0

/-- Claim C2, counterexample to the claim as stated: `addPlayer` pushed
identity `0` into the session's full-dirty list between ticks, and the
next tick's resolver pass pushes the same identity into the
partial-dirty list (the new player is idle), so at the moment the
broadcast pass runs the identity is in both lists. -/
theorem joined_player_identity_in_both_dirty_lists :
    0 ∈ (firstLoop 3 2 1000 cOracleNone joinedGame).fullDirtyObjects
    ∧ 0 ∈ (firstLoop 3 2 1000 cOracleNone joinedGame).partialDirtyObjects := by
  decide

/-! ### Alive-count bookkeeping (C3) -/

/-- Alive status reads only the heap. -/
theorem alivePid_players_eq (g g2 : Game) (h : g2.players = g.players) (x : Nat) :
    alivePid g2 x = alivePid g x := by
  unfold alivePid findPlayer
  rw [h]

/-- A heap dereference that succeeds is unaffected by appending new
players at the end of the heap. -/
theorem findPlayer_append_found (g : Game) (l : List Player) (x : Nat) (p : Player)
    (hp : findPlayer g x = some p) :
    (g.players ++ l).find? (fun q => q.id == x) = some p := by
  rw [List.find?_append]
  have hp2 : g.players.find? (fun q => q.id == x) = some p := hp
  rw [hp2]
  rfl

/-- Claim C3 (amended): in a well-formed session state satisfying the
alive-count invariant, the invariant — `aliveCount` equals the number
of players in the active collection whose `dead` flag is false — is
preserved by every `addPlayer` and by every `removePlayer` whose target
is still a member of the active collection. (Unconditionally the claim
fails: removing an already-removed living player decrements again, see
the counterexample and claim C4.) -/
theorem alive_count_tracks_active_nondead (g : Game) (hwf : WfGame g) (hinv : aliveInv g) :
    aliveInv (g.addPlayer).1 ∧ ∀ pid ∈ g.activePlayers, aliveInv (g.removePlayer pid) := by
  constructor
  · have hnone : g.players.find? (fun q => q.id == g.objects.length) = none := by
      apply List.find?_eq_none.mpr
      intro q hq
      have := hwf.store_lt q hq
      simp
      omega
    have hfind_new : findPlayer (g.addPlayer).1 g.objects.length = some g.newPlayer := by
      show (g.players ++ [g.newPlayer]).find? (fun q => q.id == g.objects.length)
        = some g.newPlayer
      rw [List.find?_append, hnone]
      simp [Game.newPlayer]
    have halive_new : alivePid (g.addPlayer).1 g.objects.length = true := by
      unfold alivePid
      rw [hfind_new]
      rfl
    have halive_old : ∀ x ∈ g.activePlayers,
        alivePid (g.addPlayer).1 x = alivePid g x := by
      intro x hx
      obtain ⟨p, hp⟩ := Option.isSome_iff_exists.mp (hwf.active_store x hx)
      have hfx : findPlayer (g.addPlayer).1 x = some p :=
        findPlayer_append_found g [g.newPlayer] x p hp
      unfold alivePid
      rw [hfx, hp]
    have hcount : activeAliveCount (g.addPlayer).1 = activeAliveCount g + 1 := by
      show ((g.activePlayers ++ [g.objects.length]).filter
          (fun x => alivePid (g.addPlayer).1 x)).length
        = (g.activePlayers.filter (fun x => alivePid g x)).length + 1
      rw [List.filter_append, List.length_append, List.filter_congr halive_old]
      simp [halive_new]
    have hinv2 : g.aliveCount = (activeAliveCount g : Int) := hinv
    show g.aliveCount + 1 = ((activeAliveCount (g.addPlayer).1 : Nat) : Int)
    rw [hcount]
    push_cast
    omega
  · intro pid hpid
    obtain ⟨p0, hp0⟩ := Option.isSome_iff_exists.mp (hwf.active_store pid hpid)
    have hf : ∀ q : Player, q.id = pid →
        (({ q with direction := ((1 : Int), (0 : Int)), quit := true } : Player)).id = pid :=
      fun q hq => hq
    have h1 : findPlayer (updatePlayer g pid
        (fun q => { q with direction := (1, 0), quit := true })) pid
        = some { p0 with direction := (1, 0), quit := true } := by
      rw [findPlayer_update_self g pid _ hf, hp0]
      rfl
    have halive1 : ∀ x, alivePid (updatePlayer g pid
        (fun q => { q with direction := (1, 0), quit := true })) x = alivePid g x := by
      intro x
      by_cases hx : x = pid
      · subst hx
        unfold alivePid
        rw [h1, hp0]
      · unfold alivePid
        rw [findPlayer_update_ne g pid x _ hf hx]
    have hrem : (g.removePlayer pid).activePlayers = removeFrom g.activePlayers pid
        ∧ (g.removePlayer pid).players
            = (updatePlayer g pid (fun q => { q with direction := (1, 0), quit := true })).players
        ∧ (g.removePlayer pid).aliveCount
            = (if p0.dead then g.aliveCount else g.aliveCount - 1) := by
      by_cases hd : p0.dead = true
      · refine ⟨?_, ?_, ?_⟩ <;>
          · simp only [Game.removePlayer]
            rw [h1]
            simp [hd, updatePlayer]
      · have hd2 : p0.dead = false := by simpa using hd
        refine ⟨?_, ?_, ?_⟩ <;>
          · simp only [Game.removePlayer]
            rw [h1]
            simp [hd2, updatePlayer]
    have halivepid : alivePid g pid = !p0.dead := by
      unfold alivePid
      rw [hp0]
    have hsplit : activeAliveCount g
        = (if alivePid g pid = true then 1 else 0)
          + ((removeFrom g.activePlayers pid).filter (fun x => alivePid g x)).length := by
      have hperm : List.Perm g.activePlayers (pid :: g.activePlayers.erase pid) :=
        List.perm_cons_erase hpid
      have hlen := (hperm.filter (fun x => alivePid g x)).length_eq
      show (g.activePlayers.filter (fun x => alivePid g x)).length = _
      rw [hlen, removeFrom]
      cases halive : alivePid g pid <;>
        simp [List.filter_cons, halive, Nat.add_comm]
    have hcount_rem : activeAliveCount (g.removePlayer pid)
        = ((removeFrom g.activePlayers pid).filter (fun x => alivePid g x)).length := by
      show ((g.removePlayer pid).activePlayers.filter
          (fun x => alivePid (g.removePlayer pid) x)).length = _
      rw [hrem.1]
      congr 1
      apply List.filter_congr
      intro x _
      exact (alivePid_players_eq _ _ hrem.2.1 x).trans (halive1 x)
    have hinv2 : g.aliveCount = (activeAliveCount g : Int) := hinv
    show (g.removePlayer pid).aliveCount = (activeAliveCount (g.removePlayer pid) : Int)
    rw [hrem.2.2, hcount_rem]
    by_cases hd : p0.dead = true
    · have h2 : alivePid g pid = false := by rw [halivepid, hd]; rfl
      rw [if_pos hd]
      rw [h2] at hsplit
      simp at hsplit
      omega
    · have hd2 : p0.dead = false := by simpa using hd
      have h2 : alivePid g pid = true := by rw [halivepid, hd2]; rfl
      rw [if_neg hd]
      rw [h2] at hsplit
      simp at hsplit
      omega

/-- Claim C3, witness: on the concrete one-player session the invariant
holds after the join and after one (valid) removal. -/
theorem alive_count_tracks_witness :
    aliveInv ((joinedGame.addPlayer).1) ∧ aliveInv (joinedGame.removePlayer 0) :=
  ⟨(alive_count_tracks_active_nondead joinedGame
      ⟨by decide, by decide, by decide⟩ (by simp only [aliveInv]; decide)).1,
   (alive_count_tracks_active_nondead joinedGame
      ⟨by decide, by decide, by decide⟩ (by simp only [aliveInv]; decide)).2 0 (by decide)⟩

/-- Claim C3, counterexample to the claim as stated: after removing the
same living player twice, `aliveCount` is -1 while the active
collection holds no non-dead player, so the equality fails after the
second `removePlayer` call. -/
theorem alive_count_invariant_fails_after_double_removal :
    ¬ aliveInv ((joinedGame.removePlayer 0).removePlayer 0) := by
  simp only [aliveInv]
  decide
